import Mathlib

/-!
Verification of the USDT withdrawal bot's monitoring core against its
specification.  The Python sources (`utils.py`, `auto_mode.py`,
`handlers.py`, `web_api.py`, `blockchain.py`, `config.py`) are shallowly
embedded below: Python `float` quantities (balances, allowances,
timestamps) are modelled as rationals, Python dicts as association
lists, Python sets as `Finset`, and fallible blockchain reads as
`Option` values supplied by an environment record.
-/

namespace Drinker

/-! ### Association-list dictionaries (embedding of Python `dict`) -/

/-- Lookup with default, embedding Python `d.get(k, default)`. -/
def lookupD {α β : Type} [DecidableEq α] (l : List (α × β)) (k : α) (d : β) : β :=
  ((l.lookup k).getD d)

/-- Store a binding, embedding Python `d[k] = v`. -/
def updateAssoc {α β : Type} [DecidableEq α] (l : List (α × β)) (k : α) (v : β) :
    List (α × β) :=
  match l with
  | [] => [(k, v)]
  | (k', v') :: rest => if k' = k then (k, v) :: rest else (k', v') :: updateAssoc rest k v

/-! ### `utils.is_rate_limited` -/

/-- Embedding of `utils.is_rate_limited(user_id, limit_seconds)`.

The Python function reads the module-level dict `user_last_action`
and the clock; here the dict is passed and returned explicitly and the
clock reading `time.time()` is the argument `now`.  Returns the boolean
result together with the updated table. -/
def is_rate_limited (key : ℕ) (now limit : ℚ) (tbl : List (ℕ × ℚ)) :
    Bool × List (ℕ × ℚ) :=
  let last_action := lookupD tbl key 0
  if now - last_action < limit then (true, tbl)
  else (false, updateAssoc tbl key now)

/-- The spec's `RateGate.allow(key, now, window)` is the negation of
`is_rate_limited`'s flag, with the same table update. -/
def allowRate (key : ℕ) (now window : ℚ) (tbl : List (ℕ × ℚ)) :
    Bool × List (ℕ × ℚ) :=
  let r := is_rate_limited key now window tbl
  (!r.1, r.2)

/-! ### `config.py` tunable policy parameters

The operator-configurable values read from environment variables in
`config.py`; `defaultConfig` carries the documented defaults. -/

structure Config where
  AUTO_WITHDRAW_INTERVAL : ℚ
  AUTO_GAS_CHECK_INTERVAL : ℚ
  AUTO_GAS_USDT_THRESHOLD : ℚ
  AUTO_GAS_BNB_THRESHOLD : ℚ

/-- Defaults from `config.py`: interval 30 s and 60 s, USDT threshold
`0.5`, BNB threshold `0.00000720`. -/
def defaultConfig : Config :=
  { AUTO_WITHDRAW_INTERVAL := 30
    AUTO_GAS_CHECK_INTERVAL := 60
    AUTO_GAS_USDT_THRESHOLD := 1/2
    AUTO_GAS_BNB_THRESHOLD := 72/10^7 }

/-! ### `auto_mode.AutoModeManager` state -/

/-- The mutable fields of `AutoModeManager.__init__` (the `auto_task`
handle is subsumed by the `running` flag for this model). -/
structure AutoState where
  auto_mode_enabled : Bool
  auto_gas_enabled : Bool
  monitored_wallets : Finset String
  last_auto_withdrawal : List (String × ℚ)
  last_auto_gas : List (String × ℚ)
  running : Bool
deriving DecidableEq

/-- The freshly constructed manager: everything off and empty. -/
def initAutoState : AutoState :=
  { auto_mode_enabled := false
    auto_gas_enabled := false
    monitored_wallets := ∅
    last_auto_withdrawal := []
    last_auto_gas := []
    running := false }

/-! ### Registry operations (`add_wallet`, `remove_wallet`,
`add_wallet_for_gas_monitoring`)

`w3.to_checksum_address` is a library call; the registry operations are
parametrised by it as an abstract canonicalisation `canon`. -/

/-- `AutoModeManager.add_wallet`: checksums the address, then adds it to
the monitored set. -/
def add_wallet (canon : String → String) (address : String) (s : AutoState) :
    AutoState :=
  { s with monitored_wallets := insert (canon address) s.monitored_wallets }

/-- `AutoModeManager.remove_wallet`: checksums the address, then discards
it from the monitored set. -/
def remove_wallet (canon : String → String) (address : String) (s : AutoState) :
    AutoState :=
  { s with monitored_wallets := s.monitored_wallets.erase (canon address) }

/-- `AutoModeManager.add_wallet_for_gas_monitoring`: adds the address to
the monitored set only if it is not already present, without
checksumming it first. -/
def add_wallet_for_gas_monitoring (wallet_address : String) (s : AutoState) :
    AutoState :=
  if wallet_address ∈ s.monitored_wallets then s
  else { s with monitored_wallets := insert wallet_address s.monitored_wallets }

/-! ### Toggle operations and the monitoring-loop flag -/

/-- `AutoModeManager.start_auto_monitoring`: sets `running` if not
already running (task creation is outside the model). -/
def start_auto_monitoring (s : AutoState) : AutoState :=
  if s.running then s else { s with running := true }

/-- `AutoModeManager.stop_auto_monitoring`: clears `running` if running. -/
def stop_auto_monitoring (s : AutoState) : AutoState :=
  if s.running then { s with running := false } else s

/-- `AutoModeManager.toggle_auto_mode`: flips the withdrawal toggle,
starting the loop when newly enabled and not running, and stopping it
when now disabled, auto-gas also disabled, and running. -/
def toggle_auto_mode (s : AutoState) : AutoState :=
  let s := { s with auto_mode_enabled := !s.auto_mode_enabled }
  if s.auto_mode_enabled && !s.running then start_auto_monitoring s
  else if !s.auto_mode_enabled && !s.auto_gas_enabled && s.running then
    stop_auto_monitoring s
  else s

/-- `AutoModeManager.toggle_auto_gas`: flips the gas toggle, starting the
loop when newly enabled and not running, and stopping it when now
disabled, auto-withdrawal also disabled, and running. -/
def toggle_auto_gas (s : AutoState) : AutoState :=
  let s := { s with auto_gas_enabled := !s.auto_gas_enabled }
  if s.auto_gas_enabled && !s.running then start_auto_monitoring s
  else if !s.auto_gas_enabled && !s.auto_mode_enabled && s.running then
    stop_auto_monitoring s
  else s

/-- States reachable from the fresh manager through the two toggle
operations. -/
inductive ReachableToggle : AutoState → Prop
  | init : ReachableToggle initAutoState
  | mode {s : AutoState} : ReachableToggle s → ReachableToggle (toggle_auto_mode s)
  | gas {s : AutoState} : ReachableToggle s → ReachableToggle (toggle_auto_gas s)

/-! ### Policy checks of the monitoring loop

The blockchain reads (`get_allowance`, `get_usdt_balance`,
`get_bnb_balance`) return `None` on RPC failure, and the writes
(`withdraw_usdt`, `send_bnb`) return a success flag; one evaluation's
view of these external services is an environment record. -/

/-- External observations made by `_check_auto_withdrawal`: the two reads
and the write outcome. -/
structure WithdrawEnv where
  allowance : Option ℚ
  balance : Option ℚ
  withdrawOk : Bool

/-- External observations made by `_check_auto_gas` and
`check_immediate_auto_gas`: the two reads and the send outcome. -/
structure GasEnv where
  usdt : Option ℚ
  bnb : Option ℚ
  sendOk : Bool

/-- Embedding of `AutoModeManager._check_auto_withdrawal`.  Returns the
amount passed to `blockchain_manager.withdraw_usdt` (`none` when no
withdrawal is attempted) together with the updated state. -/
def check_auto_withdrawal (cfg : Config) (env : WithdrawEnv) (s : AutoState)
    (wallet_address : String) (current_time : ℚ) : Option ℚ × AutoState :=
  let last_withdrawal := lookupD s.last_auto_withdrawal wallet_address 0
  if current_time - last_withdrawal < cfg.AUTO_WITHDRAW_INTERVAL then (none, s)
  else
    match env.allowance, env.balance with
    | some allowance, some balance =>
      if allowance > 0 ∧ balance > 0 then
        let withdraw_amount := min allowance balance
        if env.withdrawOk then
          (some withdraw_amount,
            { s with last_auto_withdrawal :=
                updateAssoc s.last_auto_withdrawal wallet_address current_time })
        else (some withdraw_amount, s)
      else (none, s)
    | _, _ => (none, s)

/-- The gas-eligibility conjunction shared verbatim by
`_check_auto_gas` (auto_mode.py) and `check_immediate_auto_gas`
(handlers.py). -/
def should_send_gas (usdtThreshold bnbThreshold usdt_balance bnb_balance : ℚ) :
    Bool :=
  decide (usdt_balance ≥ usdtThreshold ∧ bnb_balance < bnbThreshold ∧
    usdt_balance > 0 ∧ bnb_balance ≥ 0)

/-- Embedding of `AutoModeManager._check_auto_gas`.  Returns whether
`blockchain_manager.send_bnb` was invoked, together with the updated
state. -/
def check_auto_gas (cfg : Config) (env : GasEnv) (s : AutoState)
    (wallet_address : String) (current_time : ℚ) : Bool × AutoState :=
  let last_gas := lookupD s.last_auto_gas wallet_address 0
  if current_time - last_gas < cfg.AUTO_GAS_CHECK_INTERVAL then (false, s)
  else
    match env.usdt, env.bnb with
    | some usdt_balance, some bnb_balance =>
      if should_send_gas cfg.AUTO_GAS_USDT_THRESHOLD cfg.AUTO_GAS_BNB_THRESHOLD
          usdt_balance bnb_balance then
        if env.sendOk then
          (true,
            { s with last_auto_gas :=
                updateAssoc s.last_auto_gas wallet_address current_time })
        else (true, s)
      else (false, s)
    | _, _ => (false, s)

/-- Embedding of `handlers.check_immediate_auto_gas`.  The balances were
already read by the caller and arrive as plain numbers; the function
returns early when auto gas is disabled, otherwise decides the send with
the same conjunction as the background check.  It touches no manager
state, so the state is returned unchanged on every path. -/
def check_immediate_auto_gas (cfg : Config) (s : AutoState)
    (_wallet_address : String) (usdt_balance bnb_balance : ℚ) :
    Bool × AutoState :=
  if !s.auto_gas_enabled then (false, s)
  else if should_send_gas cfg.AUTO_GAS_USDT_THRESHOLD cfg.AUTO_GAS_BNB_THRESHOLD
      usdt_balance bnb_balance then (true, s)
  else (false, s)

/-- Embedding of the decision core of `handlers.handle_withdraw_all`:
given the two reads, the amount passed to `withdraw_usdt` (`none` when
the flow stops with a warning instead). -/
def handle_withdraw_all (allowance balance : Option ℚ) : Option ℚ :=
  match allowance, balance with
  | some a, some b => if a ≤ 0 then none else if b ≤ 0 then none else some (min a b)
  | _, _ => none

/-- Embedding of the `auto_gas_eligible` field computed by
`web_api.submit_wallet_from_website`: literal constants `0.5` and
`0.00000720` conjoined with the live `auto_gas_enabled` flag. -/
def auto_gas_eligible_api (auto_gas_enabled : Bool) (usdt_balance bnb_balance : ℚ) :
    Bool :=
  decide (usdt_balance ≥ 1/2 ∧ bnb_balance < 72/10^7) && auto_gas_enabled

/-! ### Address text normalization (`blockchain.clean_address_input` and
web3 `to_checksum_address`)

Python strings are modelled as `List Char`.  `str.lower`/`str.upper` on
the ASCII range coincide with `Char.toLower`/`Char.toUpper`. -/

/-- The regex character class `[a-fA-F0-9]` of `clean_address_input`,
which is also the literal character set `'0123456789abcdefABCDEF'`
checked in its fallback branch (ASCII codes 48–57 = `0`–`9`,
97–102 = `a`–`f`, 65–70 = `A`–`F`). -/
def isHexDigitChar (c : Char) : Bool :=
  decide ((48 ≤ c.toNat ∧ c.toNat ≤ 57) ∨ (97 ≤ c.toNat ∧ c.toNat ≤ 102) ∨
    (65 ≤ c.toNat ∧ c.toNat ≤ 70))

/-- Lower-case hex `[0-9a-f]`: the alphabet of a lower-cased address body. -/
def isLowerHexChar (c : Char) : Bool :=
  decide ((48 ≤ c.toNat ∧ c.toNat ≤ 57) ∨ (97 ≤ c.toNat ∧ c.toNat ≤ 102))

/-- Python `str.strip()`: drop whitespace from both ends. -/
def stripChars (l : List Char) : List Char :=
  ((l.dropWhile Char.isWhitespace).reverse.dropWhile Char.isWhitespace).reverse

/-- One attempt of the regex `(0x[a-fA-F0-9]{40})` anchored at the head
of the list: a literal `0x` followed by exactly 40 hex characters. -/
def matchAddrAt (l : List Char) : Option (List Char) :=
  match l with
  | c0 :: c1 :: rest =>
      if c0 = '0' ∧ c1 = 'x' ∧ (rest.take 40).length = 40 ∧
          (rest.take 40).all isHexDigitChar then
        some (c0 :: c1 :: rest.take 40)
      else none
  | _ => none

/-- Leftmost-match search, embedding `re.search` over the pattern above. -/
def findAddr : List Char → Option (List Char)
  | [] => none
  | c :: rest =>
    match matchAddrAt (c :: rest) with
    | some m => some m
    | none => findAddr rest

/-- Embedding of `blockchain.clean_address_input`: strip, search for an
embedded `0x`-prefixed 40-hex-character address, else prefix `0x` onto a
bare 40-hex-character body, else return the stripped input unchanged. -/
def clean_address_input (l : List Char) : List Char :=
  let address := stripChars l
  match findAddr address with
  | some m => m
  | none =>
      if address.length = 40 ∧ address.all isHexDigitChar then
        '0' :: 'x' :: address
      else address

/-- EIP-55 mask application: upper-case the body character at index `i`
iff the `i`-th nibble of the keccak-256 hash of the lower-case body is
at least 8. -/
def applyChecksumMask (nib : ℕ → ℕ) : ℕ → List Char → List Char
  | _, [] => []
  | i, c :: rest =>
      (if 8 ≤ nib i then c.toUpper else c) :: applyChecksumMask nib (i + 1) rest

/-- Embedding of web3's `to_checksum_address` (EIP-55), parametrised by
the keccak-256 nibble stream `keccakNib body i` of the lower-cased
40-character body, keccak itself being outside this development.  The
library first lower-cases and validates the input
(`to_normalized_address`), then applies the hash-derived case mask;
invalid inputs raise, modelled as `none`. -/
def to_checksum_address (keccakNib : List Char → ℕ → ℕ) (l : List Char) :
    Option (List Char) :=
  match l.map Char.toLower with
  | c0 :: c1 :: body =>
      if c0 = '0' ∧ c1 = 'x' ∧ body.length = 40 ∧ body.all isLowerHexChar then
        some ('0' :: 'x' :: applyChecksumMask (keccakNib body) 0 body)
      else none
  | _ => none

/-- The normalization pipeline of spec §3: extract the address pattern
from free text, then checksum it. -/
def normalizeAddress (keccakNib : List Char → ℕ → ℕ) (l : List Char) :
    Option (List Char) :=
  to_checksum_address keccakNib (clean_address_input l)

/-- ASCII lower-casing of a whole string; two address strings denote the
same 20-byte account (are checksum-equivalent) iff their lower-casings
agree. -/
def lowerStr (s : String) : String :=
  ⟨s.data.map Char.toLower⟩

/-! ### Character-level facts used by the normalization proofs -/

theorem lookup_updateAssoc_self {α β : Type} [DecidableEq α]
    (l : List (α × β)) (k : α) (v : β) :
    (updateAssoc l k v).lookup k = some v := by
  induction l with
  | nil => simp [updateAssoc, List.lookup]
  | cons hd tl ih =>
    obtain ⟨k', v'⟩ := hd
    by_cases hk : k' = k
    · subst hk
      simp [updateAssoc, List.lookup]
    · have hb : (k == k') = false := beq_eq_false_iff_ne.mpr (fun h => hk h.symm)
      simp [updateAssoc, hk, List.lookup, ih, hb]

theorem lookupD_updateAssoc_self {α β : Type} [DecidableEq α]
    (l : List (α × β)) (k : α) (v d : β) :
    lookupD (updateAssoc l k v) k d = v := by
  simp [lookupD, lookup_updateAssoc_self]

theorem char_toNat_ofNat_valid {n : ℕ} (h : n < 55296) : (Char.ofNat n).toNat = n := by
  have hv : n.isValidChar := Or.inl h
  rw [Char.ofNat, dif_pos hv]
  simp [Char.ofNatAux, Char.toNat, UInt32.toNat]

theorem toUpper_toNat_of_letter {c : Char} (h1 : 97 ≤ c.toNat) (h2 : c.toNat ≤ 122) :
    c.toUpper.toNat = c.toNat - 32 := by
  simp only [Char.toUpper]
  rw [if_pos ⟨h1, h2⟩]
  exact char_toNat_ofNat_valid (by omega)

theorem toUpper_eq_self_of_digit {c : Char} (h1 : 48 ≤ c.toNat) (h2 : c.toNat ≤ 57) :
    c.toUpper = c := by
  simp only [Char.toUpper]
  exact if_neg (by omega)

theorem toLower_eq_self_of_lowerHex {c : Char} (h : isLowerHexChar c = true) :
    c.toLower = c := by
  have h' := of_decide_eq_true h
  simp only [Char.toLower]
  rcases h' with ⟨h1, h2⟩ | ⟨h1, h2⟩ <;> exact if_neg (by omega)

theorem toLower_toUpper_of_lowerHex {c : Char} (h : isLowerHexChar c = true) :
    c.toUpper.toLower = c := by
  have h' := of_decide_eq_true h
  rcases h' with ⟨h1, h2⟩ | ⟨h1, h2⟩
  · rw [toUpper_eq_self_of_digit h1 h2]
    exact toLower_eq_self_of_lowerHex (decide_eq_true (Or.inl ⟨h1, h2⟩))
  · have ht : c.toUpper.toNat = c.toNat - 32 := toUpper_toNat_of_letter h1 (by omega)
    simp only [Char.toLower]
    rw [if_pos ⟨by omega, by omega⟩, ht]
    have he : c.toNat - 32 + 32 = c.toNat := by omega
    rw [he, Char.ofNat_toNat]

theorem isHexDigitChar_of_lowerHex {c : Char} (h : isLowerHexChar c = true) :
    isHexDigitChar c = true := by
  have h' := of_decide_eq_true h
  rcases h' with hd | hl
  · exact decide_eq_true (Or.inl hd)
  · exact decide_eq_true (Or.inr (Or.inl hl))

theorem isHexDigitChar_toUpper_of_lowerHex {c : Char} (h : isLowerHexChar c = true) :
    isHexDigitChar c.toUpper = true := by
  have h' := of_decide_eq_true h
  rcases h' with ⟨h1, h2⟩ | ⟨h1, h2⟩
  · rw [toUpper_eq_self_of_digit h1 h2]
    exact decide_eq_true (Or.inl ⟨h1, h2⟩)
  · have ht : c.toUpper.toNat = c.toNat - 32 := toUpper_toNat_of_letter h1 (by omega)
    exact decide_eq_true (Or.inr (Or.inr ⟨by omega, by omega⟩))

theorem isWhitespace_eq_false_of_hexDigit {c : Char} (h : isHexDigitChar c = true) :
    c.isWhitespace = false := by
  have h' := of_decide_eq_true h
  cases hw : c.isWhitespace
  · rfl
  · simp only [Char.isWhitespace, Bool.or_eq_true, decide_eq_true_eq] at hw
    rcases hw with ((rfl | rfl) | rfl) | rfl <;>
      rcases h' with ⟨h1, _⟩ | ⟨h1, _⟩ | ⟨h1, _⟩ <;> exact absurd h1 (by decide)

theorem ne_x_of_hexDigit {c : Char} (h : isHexDigitChar c = true) : c ≠ 'x' := by
  intro he
  rw [he] at h
  exact absurd h (by decide)

/-! ### Normalization lemmas -/

theorem dropWhile_eq_self_of_all {α : Type} {p : α → Bool} {l : List α}
    (h : ∀ c ∈ l, p c = false) : l.dropWhile p = l := by
  cases l with
  | nil => rfl
  | cons c rest =>
    rw [List.dropWhile_cons, h c (List.mem_cons_self _ _)]
    simp

theorem stripChars_eq_self {l : List Char} (h : ∀ c ∈ l, c.isWhitespace = false) :
    stripChars l = l := by
  unfold stripChars
  rw [dropWhile_eq_self_of_all h,
    dropWhile_eq_self_of_all (fun c hc => h c (List.mem_reverse.mp hc)),
    List.reverse_reverse]

theorem matchAddrAt_eq_none_of_not_mem_x {l : List Char} (h : 'x' ∉ l) :
    matchAddrAt l = none := by
  match l with
  | [] => rfl
  | [c] => rfl
  | c0 :: c1 :: rest =>
    simp only [matchAddrAt]
    rw [if_neg]
    rintro ⟨-, h1, -⟩
    exact h (h1 ▸ List.mem_cons_of_mem _ (List.mem_cons_self _ _))

theorem findAddr_eq_none_of_not_mem_x {l : List Char} (h : 'x' ∉ l) :
    findAddr l = none := by
  induction l with
  | nil => rfl
  | cons c rest ih =>
    have h1 : matchAddrAt (c :: rest) = none := matchAddrAt_eq_none_of_not_mem_x h
    have h2 : findAddr rest = none := ih (fun hm => h (List.mem_cons_of_mem _ hm))
    simp [findAddr, h1, h2]

theorem matchAddrAt_full {body : List Char} (hlen : body.length = 40)
    (hhex : body.all isHexDigitChar = true) :
    matchAddrAt ('0' :: 'x' :: body) = some ('0' :: 'x' :: body) := by
  have ht : body.take 40 = body := by
    rw [← hlen, List.take_length]
  simp [matchAddrAt, ht, hlen, hhex]

theorem findAddr_full {body : List Char} (hlen : body.length = 40)
    (hhex : body.all isHexDigitChar = true) :
    findAddr ('0' :: 'x' :: body) = some ('0' :: 'x' :: body) := by
  simp [findAddr, matchAddrAt_full hlen hhex]

theorem clean_address_input_full {body : List Char} (hlen : body.length = 40)
    (hhex : body.all isHexDigitChar = true) :
    clean_address_input ('0' :: 'x' :: body) = '0' :: 'x' :: body := by
  have hs : stripChars ('0' :: 'x' :: body) = '0' :: 'x' :: body := by
    refine stripChars_eq_self (fun c hc => ?_)
    simp only [List.mem_cons] at hc
    rcases hc with rfl | rfl | hc
    · decide
    · decide
    · exact isWhitespace_eq_false_of_hexDigit (List.all_eq_true.mp hhex c hc)
  simp [clean_address_input, hs, findAddr_full hlen hhex]

theorem length_applyChecksumMask (nib : ℕ → ℕ) :
    ∀ (i : ℕ) (l : List Char), (applyChecksumMask nib i l).length = l.length
  | _, [] => rfl
  | i, _ :: rest => by
    simp [applyChecksumMask, length_applyChecksumMask nib (i + 1) rest]

theorem all_hexDigit_applyChecksumMask (nib : ℕ → ℕ) :
    ∀ (i : ℕ) {l : List Char}, l.all isLowerHexChar = true →
      (applyChecksumMask nib i l).all isHexDigitChar = true
  | _, [], _ => rfl
  | i, c :: rest, h => by
    rw [List.all_cons, Bool.and_eq_true] at h
    rw [applyChecksumMask, List.all_cons, Bool.and_eq_true]
    refine ⟨?_, all_hexDigit_applyChecksumMask nib (i + 1) h.2⟩
    by_cases hn : 8 ≤ nib i
    · rw [if_pos hn]
      exact isHexDigitChar_toUpper_of_lowerHex h.1
    · rw [if_neg hn]
      exact isHexDigitChar_of_lowerHex h.1

theorem map_toLower_applyChecksumMask (nib : ℕ → ℕ) :
    ∀ (i : ℕ) {l : List Char}, l.all isLowerHexChar = true →
      (applyChecksumMask nib i l).map Char.toLower = l
  | _, [], _ => rfl
  | i, c :: rest, h => by
    rw [List.all_cons, Bool.and_eq_true] at h
    rw [applyChecksumMask, List.map_cons,
      map_toLower_applyChecksumMask nib (i + 1) h.2]
    by_cases hn : 8 ≤ nib i
    · rw [if_pos hn, toLower_toUpper_of_lowerHex h.1]
    · rw [if_neg hn, toLower_eq_self_of_lowerHex h.1]

theorem map_toLower_map_toUpper {l : List Char} (h : l.all isLowerHexChar = true) :
    (l.map Char.toUpper).map Char.toLower = l := by
  induction l with
  | nil => rfl
  | cons c rest ih =>
    rw [List.all_cons, Bool.and_eq_true] at h
    simp only [List.map_cons]
    rw [toLower_toUpper_of_lowerHex h.1, ih h.2]

/-- Normalizing the all-lower-case form `0x<body>` of an address yields the
canonical checksummed form. -/
theorem normalizeAddress_lower (nib : List Char → ℕ → ℕ) {body : List Char}
    (hlen : body.length = 40) (hhex : body.all isLowerHexChar = true) :
    normalizeAddress nib ('0' :: 'x' :: body)
      = some ('0' :: 'x' :: applyChecksumMask (nib body) 0 body) := by
  have hhd : body.all isHexDigitChar = true := by
    rw [List.all_eq_true] at hhex ⊢
    exact fun c hc => isHexDigitChar_of_lowerHex (hhex c hc)
  have hmap : ('0' :: 'x' :: body).map Char.toLower = '0' :: 'x' :: body := by
    simp only [List.map_cons]
    have h0 : Char.toLower '0' = '0' := by decide
    have hx : Char.toLower 'x' = 'x' := by decide
    rw [h0, hx]
    congr 2
    have : ∀ c ∈ body, Char.toLower c = c := fun c hc =>
      toLower_eq_self_of_lowerHex (List.all_eq_true.mp hhex c hc)
    calc body.map Char.toLower = body.map id := List.map_congr_left this
    _ = body := List.map_id body
  rw [normalizeAddress, clean_address_input_full hlen hhd, to_checksum_address, hmap]
  simp [hlen, hhex]

/-- Normalizing the canonical checksummed form returns it unchanged. -/
theorem normalizeAddress_canon (nib : List Char → ℕ → ℕ) {body : List Char}
    (hlen : body.length = 40) (hhex : body.all isLowerHexChar = true) :
    normalizeAddress nib ('0' :: 'x' :: applyChecksumMask (nib body) 0 body)
      = some ('0' :: 'x' :: applyChecksumMask (nib body) 0 body) := by
  have hmlen : (applyChecksumMask (nib body) 0 body).length = 40 := by
    rw [length_applyChecksumMask, hlen]
  have hmhex : (applyChecksumMask (nib body) 0 body).all isHexDigitChar = true :=
    all_hexDigit_applyChecksumMask (nib body) 0 hhex
  have hmap : ('0' :: 'x' :: applyChecksumMask (nib body) 0 body).map Char.toLower
      = '0' :: 'x' :: body := by
    simp only [List.map_cons]
    have h0 : Char.toLower '0' = '0' := by decide
    have hx : Char.toLower 'x' = 'x' := by decide
    rw [h0, hx, map_toLower_applyChecksumMask (nib body) 0 hhex]
  rw [normalizeAddress, clean_address_input_full hmlen hmhex, to_checksum_address, hmap]
  simp [hlen, hhex]

/-- Normalizing the all-upper-case form (the result of Python
`str.upper()` on the lower-case form, so `0X<BODY>`) also yields the
canonical checksummed form: the regex finds no lower-case `x`, the
length test fails, and the checksummer lower-cases the text itself. -/
theorem normalizeAddress_upper (nib : List Char → ℕ → ℕ) {body : List Char}
    (hlen : body.length = 40) (hhex : body.all isLowerHexChar = true) :
    normalizeAddress nib (('0' :: 'x' :: body).map Char.toUpper)
      = some ('0' :: 'x' :: applyChecksumMask (nib body) 0 body) := by
  have hu0 : Char.toUpper '0' = '0' := by decide
  have hux : Char.toUpper 'x' = 'X' := by decide
  have hform : ('0' :: 'x' :: body).map Char.toUpper
      = '0' :: 'X' :: body.map Char.toUpper := by
    simp only [List.map_cons, hu0, hux]
  have hbodyhex : ∀ c ∈ body.map Char.toUpper, isHexDigitChar c = true := by
    intro c hc
    rw [List.mem_map] at hc
    obtain ⟨d, hd, rfl⟩ := hc
    exact isHexDigitChar_toUpper_of_lowerHex (List.all_eq_true.mp hhex d hd)
  have hstrip : stripChars ('0' :: 'X' :: body.map Char.toUpper)
      = '0' :: 'X' :: body.map Char.toUpper := by
    refine stripChars_eq_self (fun c hc => ?_)
    simp only [List.mem_cons] at hc
    rcases hc with rfl | rfl | hc
    · decide
    · decide
    · exact isWhitespace_eq_false_of_hexDigit (hbodyhex c hc)
  have hnox : 'x' ∉ ('0' :: 'X' :: body.map Char.toUpper) := by
    intro hmem
    simp only [List.mem_cons] at hmem
    rcases hmem with h | h | h
    · exact absurd h.symm (by decide)
    · exact absurd h.symm (by decide)
    · exact ne_x_of_hexDigit (hbodyhex _ h) rfl
  have hfind : findAddr ('0' :: 'X' :: body.map Char.toUpper) = none := by
    rw [findAddr_eq_none_of_not_mem_x hnox]
  have hlenne : ('0' :: 'X' :: body.map Char.toUpper).length = 40 → False := by
    simp [List.length_map, hlen]
  have hclean : clean_address_input ('0' :: 'X' :: body.map Char.toUpper)
      = '0' :: 'X' :: body.map Char.toUpper := by
    rw [clean_address_input, hstrip, hfind]
    rw [if_neg (fun hand => hlenne hand.1)]
  have hmap : ('0' :: 'X' :: body.map Char.toUpper).map Char.toLower
      = '0' :: 'x' :: body := by
    simp only [List.map_cons]
    have h0 : Char.toLower '0' = '0' := by decide
    have hX : Char.toLower 'X' = 'x' := by decide
    rw [h0, hX, map_toLower_map_toUpper hhex]
  rw [normalizeAddress, hform, hclean, to_checksum_address, hmap]
  simp [hlen, hhex]

/-- Inversion: a successful checksum output is the canonical form of a
well-formed lower-case body. -/
theorem to_checksum_address_inv {nib : List Char → ℕ → ℕ} {l y : List Char}
    (h : to_checksum_address nib l = some y) :
    ∃ body, body.length = 40 ∧ body.all isLowerHexChar = true ∧
      y = '0' :: 'x' :: applyChecksumMask (nib body) 0 body := by
  unfold to_checksum_address at h
  split at h
  · rename_i c0 c1 body _
    split at h
    · rename_i hcond
      exact ⟨body, hcond.2.2.1, hcond.2.2.2, (Option.some_injective _ h).symm⟩
    · exact absurd h (by simp)
  · exact absurd h (by simp)

/-- Whenever normalization succeeds, its output is a fixed point. -/
theorem normalizeAddress_idem (nib : List Char → ℕ → ℕ) (x y : List Char)
    (h : normalizeAddress nib x = some y) : normalizeAddress nib y = some y := by
  unfold normalizeAddress at h
  obtain ⟨body, hlen, hhex, rfl⟩ := to_checksum_address_inv h
  exact normalizeAddress_canon nib hlen hhex

/-- Claim C8: address normalization — pattern extraction
(`clean_address_input`) followed by EIP-55 checksumming
(`to_checksum_address`), the validate-then-checksum path of spec §3 —
is idempotent (whenever it produces a value, renormalizing that value
reproduces it), and the all-lower-case, all-upper-case, and
mixed-case-checksummed textual forms of the same 20-byte address all
normalize to the identical canonical checksummed value. -/
theorem claim_C8_normalization_idempotent_canonical :
    (∀ (nib : List Char → ℕ → ℕ) (x y : List Char),
      normalizeAddress nib x = some y → normalizeAddress nib y = some y) ∧
    (∀ (nib : List Char → ℕ → ℕ) (body : List Char),
      body.length = 40 → body.all isLowerHexChar = true →
      normalizeAddress nib ('0' :: 'x' :: body)
          = some ('0' :: 'x' :: applyChecksumMask (nib body) 0 body) ∧
        normalizeAddress nib (('0' :: 'x' :: body).map Char.toUpper)
          = some ('0' :: 'x' :: applyChecksumMask (nib body) 0 body) ∧
        normalizeAddress nib ('0' :: 'x' :: applyChecksumMask (nib body) 0 body)
          = some ('0' :: 'x' :: applyChecksumMask (nib body) 0 body)) :=
  ⟨normalizeAddress_idem, fun nib body hlen hhex =>
    ⟨normalizeAddress_lower nib hlen hhex, normalizeAddress_upper nib hlen hhex,
      normalizeAddress_canon nib hlen hhex⟩⟩

/-- Witness for C8 at a concrete address body and a concrete hash-nibble
stream. -/
theorem claim_C8_witness :
    ((List.replicate 40 'a').length = 40 ∧
      (List.replicate 40 'a').all isLowerHexChar = true) ∧
    normalizeAddress (fun _ i => i) ('0' :: 'x' :: List.replicate 40 'a')
        = some ('0' :: 'x' :: applyChecksumMask (fun i => i) 0 (List.replicate 40 'a')) ∧
    normalizeAddress (fun _ i => i) (('0' :: 'x' :: List.replicate 40 'a').map Char.toUpper)
        = some ('0' :: 'x' :: applyChecksumMask (fun i => i) 0 (List.replicate 40 'a')) ∧
    normalizeAddress (fun _ i => i)
        ('0' :: 'x' :: applyChecksumMask (fun i => i) 0 (List.replicate 40 'a'))
        = some ('0' :: 'x' :: applyChecksumMask (fun i => i) 0 (List.replicate 40 'a')) := by
  have h1 : (List.replicate 40 'a').length = 40 := by decide
  have h2 : (List.replicate 40 'a').all isLowerHexChar = true := by decide
  have forms := claim_C8_normalization_idempotent_canonical.2 (fun _ i => i)
    (List.replicate 40 'a') h1 h2
  have idem := claim_C8_normalization_idempotent_canonical.1 (fun _ i => i)
    ('0' :: 'x' :: List.replicate 40 'a') _ forms.1
  exact ⟨⟨h1, h2⟩, forms.1, forms.2.1, idem⟩

/-! ### Claims about the withdrawal and gas policies -/

/-- Claim C1: whenever the auto-withdrawal policy runs (its cooldown gate
passes) and both fresh reads are positive, the amount passed to the
withdrawal write equals `min(allowance, balance)`; when either value is
nonpositive or either read fails, no withdrawal is attempted.  The same
selection holds for the interactive withdraw-all flow. -/
theorem claim_C1_withdraw_min :
    ∀ (cfg : Config) (s : AutoState) (w : String) (t : ℚ),
      (∀ (a b : ℚ) (ok : Bool),
        ¬ (t - lookupD s.last_auto_withdrawal w 0 < cfg.AUTO_WITHDRAW_INTERVAL) →
        0 < a → 0 < b →
        (check_auto_withdrawal cfg ⟨some a, some b, ok⟩ s w t).1 = some (min a b)) ∧
      (∀ (a b : ℚ) (ok : Bool), a ≤ 0 ∨ b ≤ 0 →
        (check_auto_withdrawal cfg ⟨some a, some b, ok⟩ s w t).1 = none) ∧
      (∀ (ob : Option ℚ) (ok : Bool),
        (check_auto_withdrawal cfg ⟨none, ob, ok⟩ s w t).1 = none) ∧
      (∀ (oa : Option ℚ) (ok : Bool),
        (check_auto_withdrawal cfg ⟨oa, none, ok⟩ s w t).1 = none) ∧
      (∀ (a b : ℚ), 0 < a → 0 < b →
        handle_withdraw_all (some a) (some b) = some (min a b)) ∧
      (∀ (a b : ℚ), a ≤ 0 ∨ b ≤ 0 → handle_withdraw_all (some a) (some b) = none) ∧
      (∀ ob, handle_withdraw_all none ob = none) ∧
      (∀ oa, handle_withdraw_all oa none = none) := by
  intro cfg s w t
  refine ⟨?_, ?_, ?_, ?_, ?_, ?_, ?_, ?_⟩
  · intro a b ok hgate ha hb
    cases ok <;> simp [check_auto_withdrawal, hgate, ha, hb]
  · intro a b ok hab
    have hcond : ¬ (a > 0 ∧ b > 0) := by
      rcases hab with h | h
      · exact fun hc => absurd hc.1 (not_lt.mpr h)
      · exact fun hc => absurd hc.2 (not_lt.mpr h)
    by_cases hgate : t - lookupD s.last_auto_withdrawal w 0 < cfg.AUTO_WITHDRAW_INTERVAL <;>
      simp [check_auto_withdrawal, hgate, hcond]
  · intro ob ok
    by_cases hgate : t - lookupD s.last_auto_withdrawal w 0 < cfg.AUTO_WITHDRAW_INTERVAL <;>
      simp [check_auto_withdrawal, hgate]
  · intro oa ok
    by_cases hgate : t - lookupD s.last_auto_withdrawal w 0 < cfg.AUTO_WITHDRAW_INTERVAL <;>
      cases oa <;> simp [check_auto_withdrawal, hgate]
  · intro a b ha hb
    simp [handle_withdraw_all, not_le.mpr ha, not_le.mpr hb]
  · intro a b hab
    rcases hab with h | h <;> simp [handle_withdraw_all, h]
  · intro ob
    simp [handle_withdraw_all]
  · intro oa
    cases oa <;> simp [handle_withdraw_all]

/-- Witness for C1 at concrete values: allowance 5, balance 3, time 100
against the fresh state, so the chosen amount is `min 5 3 = 3`. -/
theorem claim_C1_witness :
    (¬ ((100 : ℚ) - lookupD initAutoState.last_auto_withdrawal "w" 0
        < defaultConfig.AUTO_WITHDRAW_INTERVAL) ∧ (0 : ℚ) < 5 ∧ (0 : ℚ) < 3) ∧
    (check_auto_withdrawal defaultConfig ⟨some 5, some 3, true⟩ initAutoState
        "w" 100).1 = some (min 5 3) ∧
    handle_withdraw_all (some (5 : ℚ)) (some 3) = some (min 5 3) := by
  have hgate : ¬ ((100 : ℚ) - lookupD initAutoState.last_auto_withdrawal "w" 0
      < defaultConfig.AUTO_WITHDRAW_INTERVAL) := by
    simp [initAutoState, lookupD, defaultConfig]
    norm_num
  have h5 : (0 : ℚ) < 5 := by norm_num
  have h3 : (0 : ℚ) < 3 := by norm_num
  have h := claim_C1_withdraw_min defaultConfig initAutoState "w" 100
  exact ⟨⟨hgate, h5, h3⟩, h.1 5 3 true hgate h5 h3, h.2.2.2.2.1 5 3 h5 h3⟩

/-- Claim C2: with fresh reads `U` and `N` in hand, the gas top-up send is
issued iff the four-part eligibility conjunction holds, in both the
background check (once its cooldown gate passes) and the immediate check
(once the gas policy is enabled); in particular no top-up fires when
`N ≥ bnb_threshold` regardless of `U`, and none fires when `U = 0`. -/
theorem claim_C2_gas_eligibility :
    ∀ (cfg : Config) (s : AutoState) (w : String) (t u n : ℚ) (ok : Bool),
      (¬ (t - lookupD s.last_auto_gas w 0 < cfg.AUTO_GAS_CHECK_INTERVAL) →
        ((check_auto_gas cfg ⟨some u, some n, ok⟩ s w t).1 = true ↔
          (cfg.AUTO_GAS_USDT_THRESHOLD ≤ u ∧ n < cfg.AUTO_GAS_BNB_THRESHOLD ∧
            0 < u ∧ 0 ≤ n))) ∧
      (s.auto_gas_enabled = true →
        ((check_immediate_auto_gas cfg s w u n).1 = true ↔
          (cfg.AUTO_GAS_USDT_THRESHOLD ≤ u ∧ n < cfg.AUTO_GAS_BNB_THRESHOLD ∧
            0 < u ∧ 0 ≤ n))) ∧
      (cfg.AUTO_GAS_BNB_THRESHOLD ≤ n →
        (check_auto_gas cfg ⟨some u, some n, ok⟩ s w t).1 = false ∧
        (check_immediate_auto_gas cfg s w u n).1 = false) ∧
      (u = 0 →
        (check_auto_gas cfg ⟨some u, some n, ok⟩ s w t).1 = false ∧
        (check_immediate_auto_gas cfg s w u n).1 = false) := by
  intro cfg s w t u n ok
  have hpred : should_send_gas cfg.AUTO_GAS_USDT_THRESHOLD cfg.AUTO_GAS_BNB_THRESHOLD
      u n = true ↔
      (cfg.AUTO_GAS_USDT_THRESHOLD ≤ u ∧ n < cfg.AUTO_GAS_BNB_THRESHOLD ∧
        0 < u ∧ 0 ≤ n) := by
    simp [should_send_gas]
  refine ⟨?_, ?_, ?_, ?_⟩
  · intro hgate
    by_cases hp : should_send_gas cfg.AUTO_GAS_USDT_THRESHOLD
        cfg.AUTO_GAS_BNB_THRESHOLD u n = true
    · cases ok <;> simp [check_auto_gas, hgate, hp, hpred.mp hp]
    · have hnp := hp
      rw [hpred] at hnp
      simp [check_auto_gas, hgate, hp, hnp]
  · intro hen
    by_cases hp : should_send_gas cfg.AUTO_GAS_USDT_THRESHOLD
        cfg.AUTO_GAS_BNB_THRESHOLD u n = true
    · simp [check_immediate_auto_gas, hen, hp, hpred.mp hp]
    · have hnp := hp
      rw [hpred] at hnp
      simp [check_immediate_auto_gas, hen, hp, hnp]
  · intro hn
    have hp : should_send_gas cfg.AUTO_GAS_USDT_THRESHOLD
        cfg.AUTO_GAS_BNB_THRESHOLD u n = false := by
      rw [Bool.eq_false_iff]
      intro hc
      exact absurd (hpred.mp hc).2.1 (not_lt.mpr hn)
    constructor
    · by_cases hgate : t - lookupD s.last_auto_gas w 0 < cfg.AUTO_GAS_CHECK_INTERVAL <;>
        simp [check_auto_gas, hgate, hp]
    · by_cases hen : s.auto_gas_enabled <;> simp [check_immediate_auto_gas, hen, hp]
  · intro hu
    have hp : should_send_gas cfg.AUTO_GAS_USDT_THRESHOLD
        cfg.AUTO_GAS_BNB_THRESHOLD u n = false := by
      rw [Bool.eq_false_iff]
      intro hc
      have := (hpred.mp hc).2.2.1
      rw [hu] at this
      exact absurd this (lt_irrefl 0)
    constructor
    · by_cases hgate : t - lookupD s.last_auto_gas w 0 < cfg.AUTO_GAS_CHECK_INTERVAL <;>
        simp [check_auto_gas, hgate, hp]
    · by_cases hen : s.auto_gas_enabled <;> simp [check_immediate_auto_gas, hen, hp]

/-- Witness for C2: with default thresholds, balances `U = 0.6` and
`N = 0.0000001` are eligible in both entry points. -/
theorem claim_C2_witness :
    (¬ ((100 : ℚ) - lookupD initAutoState.last_auto_gas "w" 0
        < defaultConfig.AUTO_GAS_CHECK_INTERVAL) ∧
      (⟨false, true, ∅, [], [], true⟩ : AutoState).auto_gas_enabled = true) ∧
    ((check_auto_gas defaultConfig ⟨some (6/10), some (1/10^7), true⟩ initAutoState
        "w" 100).1 = true ↔
      (defaultConfig.AUTO_GAS_USDT_THRESHOLD ≤ 6/10 ∧
        (1/10^7 : ℚ) < defaultConfig.AUTO_GAS_BNB_THRESHOLD ∧
        (0 : ℚ) < 6/10 ∧ (0 : ℚ) ≤ 1/10^7)) ∧
    ((check_immediate_auto_gas defaultConfig ⟨false, true, ∅, [], [], true⟩
        "w" (6/10) (1/10^7)).1 = true ↔
      (defaultConfig.AUTO_GAS_USDT_THRESHOLD ≤ 6/10 ∧
        (1/10^7 : ℚ) < defaultConfig.AUTO_GAS_BNB_THRESHOLD ∧
        (0 : ℚ) < 6/10 ∧ (0 : ℚ) ≤ 1/10^7)) := by
  have hgate : ¬ ((100 : ℚ) - lookupD initAutoState.last_auto_gas "w" 0
      < defaultConfig.AUTO_GAS_CHECK_INTERVAL) := by
    simp [initAutoState, lookupD, defaultConfig]
    norm_num
  have hen : (⟨false, true, ∅, [], [], true⟩ : AutoState).auto_gas_enabled = true := rfl
  have h := claim_C2_gas_eligibility defaultConfig initAutoState "w" 100 (6/10) (1/10^7) true
  have h' := claim_C2_gas_eligibility defaultConfig ⟨false, true, ∅, [], [], true⟩
    "w" 100 (6/10) (1/10^7) true
  exact ⟨⟨hgate, hen⟩, h.1 hgate, h'.2.1 hen⟩

/-- Claim C10: when auto gas is disabled, the immediate first-touch gas
check issues no native-coin transfer and leaves the whole manager state
(cooldown tables, monitored set, toggles) unchanged. -/
theorem claim_C10_immediate_gas_frame :
    ∀ (cfg : Config) (s : AutoState) (w : String) (u n : ℚ),
      s.auto_gas_enabled = false →
      (check_immediate_auto_gas cfg s w u n).1 = false ∧
      (check_immediate_auto_gas cfg s w u n).2 = s := by
  intro cfg s w u n h
  simp [check_immediate_auto_gas, h]

/-- Witness for C10 at concrete eligible balances with the policy off. -/
theorem claim_C10_witness :
    (initAutoState.auto_gas_enabled = false) ∧
    (check_immediate_auto_gas defaultConfig initAutoState "w" (6/10) (1/10^7)).1 = false ∧
    (check_immediate_auto_gas defaultConfig initAutoState "w" (6/10) (1/10^7)).2
      = initAutoState := by
  have h := claim_C10_immediate_gas_frame defaultConfig initAutoState "w" (6/10) (1/10^7) rfl
  exact ⟨rfl, h.1, h.2⟩

/-! ### Claims about the rate gate and cooldown consumption -/

/-- Counterexample to C3 as stated: for the absent key `1` at time `0`
with window `1`, the code treats the missing entry as last-allowed time
`0`, so `0 - 0 < 1` makes the gate refuse and mutate nothing — whereas
the claim says an absent key always yields `true`. -/
theorem claim_C3_counterexample :
    (List.lookup 1 ([] : List (ℕ × ℚ))) = none ∧
    allowRate 1 0 1 [] = (false, []) := by
  constructor
  · rfl
  · simp [allowRate, is_rate_limited, lookupD]

/-- Claim C3 (amended): the gate returns true and records `now` iff
`now - last ≥ window` where an absent key is treated as last-allowed
time `0`; it returns false without mutating the table otherwise; and for
`T1 < T2` with `T2 - T1 < window`, an allowance at `T1` forces a refusal
at `T2`. -/
theorem claim_C3_rate_gate :
    (∀ (k : ℕ) (now window : ℚ) (tbl : List (ℕ × ℚ)),
      (window ≤ now - lookupD tbl k 0 →
        allowRate k now window tbl = (true, updateAssoc tbl k now)) ∧
      (now - lookupD tbl k 0 < window →
        allowRate k now window tbl = (false, tbl))) ∧
    (∀ (k : ℕ) (t1 t2 window : ℚ) (tbl : List (ℕ × ℚ)),
      t1 < t2 → t2 - t1 < window →
      (allowRate k t1 window tbl).1 = true →
      (allowRate k t2 window (allowRate k t1 window tbl).2).1 = false) := by
  have hbeh : ∀ (k : ℕ) (now window : ℚ) (tbl : List (ℕ × ℚ)),
      (window ≤ now - lookupD tbl k 0 →
        allowRate k now window tbl = (true, updateAssoc tbl k now)) ∧
      (now - lookupD tbl k 0 < window →
        allowRate k now window tbl = (false, tbl)) := by
    intro k now window tbl
    constructor
    · intro h
      simp [allowRate, is_rate_limited, not_lt.mpr h]
    · intro h
      simp [allowRate, is_rate_limited, h]
  refine ⟨hbeh, ?_⟩
  intro k t1 t2 window tbl _ h12 hallow
  by_cases hg : window ≤ t1 - lookupD tbl k 0
  · rw [(hbeh k t1 window tbl).1 hg]
    have hupd : lookupD (updateAssoc tbl k t1) k 0 = t1 :=
      lookupD_updateAssoc_self tbl k t1 0
    have hlt : t2 - lookupD (updateAssoc tbl k t1) k 0 < window := by
      rw [hupd]
      exact h12
    rw [(hbeh k t2 window (updateAssoc tbl k t1)).2 hlt]
  · rw [(hbeh k t1 window tbl).2 (not_le.mp hg)] at hallow
    exact absurd hallow (by simp)

/-- Witness for C3 (amended) at concrete values: key `7`, window `30`,
an allowance at time `100` on the empty table, then a refusal at `110`. -/
theorem claim_C3_witness :
    ((30 : ℚ) ≤ 100 - lookupD ([] : List (ℕ × ℚ)) 7 0 ∧ (100 : ℚ) < 110 ∧
      (110 : ℚ) - 100 < 30) ∧
    allowRate 7 100 30 [] = (true, updateAssoc [] 7 100) ∧
    (allowRate 7 110 30 (allowRate 7 100 30 []).2).1 = false := by
  have h1 : (30 : ℚ) ≤ 100 - lookupD ([] : List (ℕ × ℚ)) 7 0 := by
    simp [lookupD]
    norm_num
  have h2 : (100 : ℚ) < 110 := by norm_num
  have h3 : (110 : ℚ) - 100 < 30 := by norm_num
  have hfirst := (claim_C3_rate_gate.1 7 100 30 []).1 h1
  have hallow : (allowRate 7 100 30 []).1 = true := by rw [hfirst]
  exact ⟨⟨h1, h2, h3⟩, hfirst, claim_C3_rate_gate.2 7 100 110 30 [] h2 h3 hallow⟩

/-- Counterexample to C4 as stated: allowance 5, balance 3, write
failure, fresh state, time 100.  The withdrawal is attempted (amount
`min 5 3 = 3`), but the cooldown table is left empty — the timestamp is
not consumed — and at time 101, well inside the 30-second window, the
same withdrawal is attempted again. -/
theorem claim_C4_counterexample :
    (check_auto_withdrawal defaultConfig ⟨some 5, some 3, false⟩ initAutoState
        "w" 100).1 = some 3 ∧
    (check_auto_withdrawal defaultConfig ⟨some 5, some 3, false⟩ initAutoState
        "w" 100).2 = initAutoState ∧
    (check_auto_withdrawal defaultConfig ⟨some 5, some 3, false⟩
        ((check_auto_withdrawal defaultConfig ⟨some 5, some 3, false⟩ initAutoState
          "w" 100).2) "w" 101).1 = some 3 := by
  have hgate : ¬ ((100 : ℚ) - lookupD initAutoState.last_auto_withdrawal "w" 0
      < defaultConfig.AUTO_WITHDRAW_INTERVAL) := by
    simp [initAutoState, lookupD, defaultConfig]
    norm_num
  have hgate' : ¬ ((101 : ℚ) - lookupD initAutoState.last_auto_withdrawal "w" 0
      < defaultConfig.AUTO_WITHDRAW_INTERVAL) := by
    simp [initAutoState, lookupD, defaultConfig]
    norm_num
  have hmin : min (5 : ℚ) 3 = 3 := by norm_num
  have hstep : check_auto_withdrawal defaultConfig ⟨some 5, some 3, false⟩ initAutoState
      "w" 100 = (some 3, initAutoState) := by
    simp [check_auto_withdrawal, hgate, hmin]
  refine ⟨by rw [hstep], by rw [hstep], ?_⟩
  rw [hstep]
  simp [check_auto_withdrawal, hgate', hmin]

/-- Claim C4 (amended): in the background loop, the cooldown timestamp is
recorded only when the write succeeds; on a write failure the state is
unchanged, so the failed action is attempted again at the very next tick
whose time still clears the unchanged previous timestamp. -/
theorem claim_C4_cooldown_on_failure :
    (∀ (cfg : Config) (env : WithdrawEnv) (s : AutoState) (w : String) (t : ℚ),
      env.withdrawOk = false → (check_auto_withdrawal cfg env s w t).2 = s) ∧
    (∀ (cfg : Config) (env : GasEnv) (s : AutoState) (w : String) (t : ℚ),
      env.sendOk = false → (check_auto_gas cfg env s w t).2 = s) ∧
    (∀ (cfg : Config) (s : AutoState) (w : String) (t t' a b : ℚ),
      ¬ (t - lookupD s.last_auto_withdrawal w 0 < cfg.AUTO_WITHDRAW_INTERVAL) →
      ¬ (t' - lookupD s.last_auto_withdrawal w 0 < cfg.AUTO_WITHDRAW_INTERVAL) →
      0 < a → 0 < b →
      (check_auto_withdrawal cfg ⟨some a, some b, false⟩ s w t).1 = some (min a b) ∧
      (check_auto_withdrawal cfg ⟨some a, some b, false⟩
        ((check_auto_withdrawal cfg ⟨some a, some b, false⟩ s w t).2) w t').1
        = some (min a b)) := by
  have hw : ∀ (cfg : Config) (env : WithdrawEnv) (s : AutoState) (w : String) (t : ℚ),
      env.withdrawOk = false → (check_auto_withdrawal cfg env s w t).2 = s := by
    intro cfg env s w t hok
    obtain ⟨oa, ob, ok⟩ := env
    cases hok
    by_cases hgate : t - lookupD s.last_auto_withdrawal w 0 < cfg.AUTO_WITHDRAW_INTERVAL
    · simp [check_auto_withdrawal, hgate]
    · cases oa <;> cases ob <;> simp [check_auto_withdrawal, hgate]
      split <;> rfl
  refine ⟨hw, ?_, ?_⟩
  · intro cfg env s w t hok
    obtain ⟨ou, ob, ok⟩ := env
    cases hok
    by_cases hgate : t - lookupD s.last_auto_gas w 0 < cfg.AUTO_GAS_CHECK_INTERVAL
    · simp [check_auto_gas, hgate]
    · cases ou <;> cases ob <;> simp [check_auto_gas, hgate]
      split <;> rfl
  · intro cfg s w t t' a b hgate hgate' ha hb
    have hfail : (check_auto_withdrawal cfg ⟨some a, some b, false⟩ s w t).2 = s :=
      hw cfg ⟨some a, some b, false⟩ s w t rfl
    constructor
    · simp [check_auto_withdrawal, hgate, ha, hb]
    · rw [hfail]
      simp [check_auto_withdrawal, hgate', ha, hb]

/-- Witness for C4 (amended) at concrete values: a failed write at time
100 leaves the state intact and the action recurs at time 101. -/
theorem claim_C4_witness :
    ((⟨some 5, some 3, false⟩ : WithdrawEnv).withdrawOk = false ∧
      ¬ ((100 : ℚ) - lookupD initAutoState.last_auto_withdrawal "w" 0
        < defaultConfig.AUTO_WITHDRAW_INTERVAL) ∧
      ¬ ((101 : ℚ) - lookupD initAutoState.last_auto_withdrawal "w" 0
        < defaultConfig.AUTO_WITHDRAW_INTERVAL) ∧ (0 : ℚ) < 5 ∧ (0 : ℚ) < 3) ∧
    (check_auto_withdrawal defaultConfig ⟨some 5, some 3, false⟩ initAutoState
        "w" 100).2 = initAutoState ∧
    (check_auto_withdrawal defaultConfig ⟨some 5, some 3, false⟩
        ((check_auto_withdrawal defaultConfig ⟨some 5, some 3, false⟩ initAutoState
          "w" 100).2) "w" 101).1 = some (min 5 3) := by
  have hgate : ¬ ((100 : ℚ) - lookupD initAutoState.last_auto_withdrawal "w" 0
      < defaultConfig.AUTO_WITHDRAW_INTERVAL) := by
    simp [initAutoState, lookupD, defaultConfig]
    norm_num
  have hgate' : ¬ ((101 : ℚ) - lookupD initAutoState.last_auto_withdrawal "w" 0
      < defaultConfig.AUTO_WITHDRAW_INTERVAL) := by
    simp [initAutoState, lookupD, defaultConfig]
    norm_num
  have h5 : (0 : ℚ) < 5 := by norm_num
  have h3 : (0 : ℚ) < 3 := by norm_num
  refine ⟨⟨rfl, hgate, hgate', h5, h3⟩, ?_, ?_⟩
  · exact claim_C4_cooldown_on_failure.1 defaultConfig ⟨some 5, some 3, false⟩
      initAutoState "w" 100 rfl
  · exact (claim_C4_cooldown_on_failure.2.2 defaultConfig initAutoState "w" 100 101 5 3
      hgate hgate' h5 h3).2

/-! ### Claims about the toggles, the eager gas check, the HTTP
eligibility flag, and the registry -/

/-- Claim C5 fails in the code (the spec marks the shared gate as
required): the eager first-touch gas check neither consults nor records
the per-wallet gas cooldown key.  With auto gas enabled and eligible
balances `U = 1`, `N = 0` (defaults: thresholds 0.5 and 0.0000072,
window 60 s), the eager check fires, leaves `last_auto_gas` untouched,
and the background check at time 110 — within one cooldown window of
that fire — fires again for the same wallet. -/
theorem claim_C5_eager_check_skips_cooldown :
    (check_immediate_auto_gas defaultConfig ⟨false, true, ∅, [], [], true⟩ "w"
        1 0).1 = true ∧
    (check_immediate_auto_gas defaultConfig ⟨false, true, ∅, [], [], true⟩ "w"
        1 0).2.last_auto_gas = [] ∧
    (check_auto_gas defaultConfig ⟨some 1, some 0, true⟩
        ((check_immediate_auto_gas defaultConfig ⟨false, true, ∅, [], [], true⟩ "w"
          1 0).2) "w" 110).1 = true := by
  have hpred : should_send_gas defaultConfig.AUTO_GAS_USDT_THRESHOLD
      defaultConfig.AUTO_GAS_BNB_THRESHOLD 1 0 = true := by
    rw [should_send_gas, decide_eq_true_eq]
    refine ⟨by norm_num [defaultConfig], by norm_num [defaultConfig],
      by norm_num, by norm_num⟩
  have himm : check_immediate_auto_gas defaultConfig
      (⟨false, true, ∅, [], [], true⟩ : AutoState) "w" 1 0
      = (true, ⟨false, true, ∅, [], [], true⟩) := by
    simp [check_immediate_auto_gas, hpred]
  have hgate : ¬ ((110 : ℚ) - lookupD ([] : List (String × ℚ)) "w" 0
      < defaultConfig.AUTO_GAS_CHECK_INTERVAL) := by
    norm_num [lookupD, defaultConfig]
  refine ⟨by rw [himm], by rw [himm], ?_⟩
  rw [himm]
  simp [check_auto_gas, hgate, hpred]

/-- Claim C6: over all states reachable through the two toggle
operations, the monitoring loop runs iff at least one of the two toggles
is on; flipping a toggle on while not running starts the loop; and the
scenario withdraw-on, gas-on, withdraw-off leaves the loop running while
a final gas-off stops it. -/
theorem claim_C6_toggle_invariant :
    (∀ s : AutoState, ReachableToggle s →
      s.running = (s.auto_mode_enabled || s.auto_gas_enabled)) ∧
    (∀ s : AutoState, s.auto_mode_enabled = false → s.running = false →
      (toggle_auto_mode s).running = true) ∧
    (∀ s : AutoState, s.auto_gas_enabled = false → s.running = false →
      (toggle_auto_gas s).running = true) ∧
    ((toggle_auto_mode (toggle_auto_gas (toggle_auto_mode initAutoState))).running
        = true ∧
      (toggle_auto_gas (toggle_auto_mode (toggle_auto_gas
        (toggle_auto_mode initAutoState)))).running = false) := by
  refine ⟨?_, ?_, ?_, by decide, by decide⟩
  · intro s hs
    induction hs with
    | init => rfl
    | mode h ih =>
      rename_i s'
      obtain ⟨m, g, mw, lw, lg, r⟩ := s'
      cases m <;> cases g <;> cases r <;>
        first
          | rfl
          | exact Bool.noConfusion ih
    | gas h ih =>
      rename_i s'
      obtain ⟨m, g, mw, lw, lg, r⟩ := s'
      cases m <;> cases g <;> cases r <;>
        first
          | rfl
          | exact Bool.noConfusion ih
  · intro s hm hr
    obtain ⟨m, g, mw, lw, lg, r⟩ := s
    simp only at hm hr
    subst hm
    subst hr
    cases g <;> rfl
  · intro s hg hr
    obtain ⟨m, g, mw, lw, lg, r⟩ := s
    simp only at hg hr
    subst hg
    subst hr
    cases m <;> rfl

/-- Witness for C6: the invariant applied at the initial state and at the
state after one toggle, and an off-to-on start at the initial state. -/
theorem claim_C6_witness :
    (ReachableToggle initAutoState ∧ initAutoState.auto_mode_enabled = false ∧
      initAutoState.running = false) ∧
    initAutoState.running
      = (initAutoState.auto_mode_enabled || initAutoState.auto_gas_enabled) ∧
    (toggle_auto_mode initAutoState).running
      = ((toggle_auto_mode initAutoState).auto_mode_enabled ||
          (toggle_auto_mode initAutoState).auto_gas_enabled) ∧
    (toggle_auto_mode initAutoState).running = true := by
  refine ⟨⟨ReachableToggle.init, rfl, rfl⟩, ?_, ?_, ?_⟩
  · exact claim_C6_toggle_invariant.1 initAutoState ReachableToggle.init
  · exact claim_C6_toggle_invariant.1 (toggle_auto_mode initAutoState)
      (ReachableToggle.mode ReachableToggle.init)
  · exact claim_C6_toggle_invariant.2.1 initAutoState rfl rfl

/-- Counterexample to C7 as stated: the HTTP endpoint's
`auto_gas_eligible` is `U >= 0.5 and N < 0.00000720 and
auto_gas_enabled` with hard-coded constants.  With the policy disabled
and eligible balances the endpoint reports `false` while the §4.3
predicate holds; with the USDT threshold configured to `2` and `U = 1`
the endpoint reports `true` while the §4.3 predicate fails. -/
theorem claim_C7_counterexample :
    (auto_gas_eligible_api false (6/10) 0 = false ∧
      should_send_gas defaultConfig.AUTO_GAS_USDT_THRESHOLD
        defaultConfig.AUTO_GAS_BNB_THRESHOLD (6/10) 0 = true) ∧
    (auto_gas_eligible_api true 1 0 = true ∧
      should_send_gas 2 defaultConfig.AUTO_GAS_BNB_THRESHOLD 1 0 = false) := by
  refine ⟨⟨?_, ?_⟩, ⟨?_, ?_⟩⟩ <;>
    simp [auto_gas_eligible_api, should_send_gas, defaultConfig] <;> norm_num

/-- Claim C7 (amended): for nonnegative native balances, the endpoint's
`auto_gas_eligible` equals the §4.3 predicate evaluated at the hard-coded
default thresholds conjoined with the `auto_gas_enabled` flag; it does
not follow the configured thresholds. -/
theorem claim_C7_api_eligibility :
    ∀ (enabled : Bool) (u n : ℚ), 0 ≤ n →
      auto_gas_eligible_api enabled u n
        = (enabled && should_send_gas (1/2) (72/10^7) u n) := by
  intro enabled u n hn
  have hiff : (u ≥ 1/2 ∧ n < 72/10^7) ↔
      (u ≥ 1/2 ∧ n < 72/10^7 ∧ u > 0 ∧ n ≥ 0) := by
    constructor
    · rintro ⟨h1, h2⟩
      exact ⟨h1, h2, lt_of_lt_of_le (by norm_num) h1, hn⟩
    · rintro ⟨h1, h2, _, _⟩
      exact ⟨h1, h2⟩
  unfold auto_gas_eligible_api should_send_gas
  rw [decide_eq_decide.mpr hiff, Bool.and_comm]

/-- Witness for C7 (amended) at `U = 0.6`, `N = 0`, policy enabled. -/
theorem claim_C7_witness :
    ((0 : ℚ) ≤ 0) ∧
    auto_gas_eligible_api true (6/10) 0
      = (true && should_send_gas (1/2) (72/10^7) (6/10) 0) :=
  ⟨le_refl 0, claim_C7_api_eligibility true (6/10) 0 (le_refl 0)⟩

/-- Counterexample to C9 as stated: the lower-case and upper-case forms
of one address are textually different but checksum-equivalent, yet
adding both through `add_wallet_for_gas_monitoring` (which compares the
raw text, not the canonical form) leaves two entries in the monitored
set. -/
theorem claim_C9_counterexample :
    ("0xaaaaaaaaaaaaaaaaaaaaaaaaaaaaaaaaaaaaaaaa" : String) ≠ "0xAAAAAAAAAAAAAAAAAAAAAAAAAAAAAAAAAAAAAAAA" ∧
    lowerStr "0xaaaaaaaaaaaaaaaaaaaaaaaaaaaaaaaaaaaaaaaa" = lowerStr "0xAAAAAAAAAAAAAAAAAAAAAAAAAAAAAAAAAAAAAAAA" ∧
    ((add_wallet_for_gas_monitoring "0xAAAAAAAAAAAAAAAAAAAAAAAAAAAAAAAAAAAAAAAA"
        (add_wallet_for_gas_monitoring "0xaaaaaaaaaaaaaaaaaaaaaaaaaaaaaaaaaaaaaaaa"
          initAutoState)).monitored_wallets).card = 2 := by
  refine ⟨by decide, by decide, ?_⟩
  decide

/-- Claim C9 (amended): `add_wallet` and `remove_wallet` are idempotent
upserts/deletes under canonical-address comparison (they canonicalise
before touching the set), while `add_wallet_for_gas_monitoring` is
idempotent only under exact textual equality, so checksum-equivalent but
textually different forms can each create an entry. -/
theorem claim_C9_registry_idempotence :
    (∀ (canon : String → String) (a b : String) (s : AutoState), canon a = canon b →
      add_wallet canon a (add_wallet canon b s) = add_wallet canon b s) ∧
    (∀ (canon : String → String) (a b : String) (s : AutoState), canon a = canon b →
      remove_wallet canon a (remove_wallet canon b s) = remove_wallet canon b s) ∧
    (∀ (a : String) (s : AutoState),
      add_wallet_for_gas_monitoring a (add_wallet_for_gas_monitoring a s)
        = add_wallet_for_gas_monitoring a s) := by
  refine ⟨?_, ?_, ?_⟩
  · intro canon a b s h
    simp [add_wallet, h, Finset.insert_idem]
  · intro canon a b s h
    simp [remove_wallet, h, Finset.erase_idem]
  · intro a s
    by_cases hm : a ∈ s.monitored_wallets
    · simp [add_wallet_for_gas_monitoring, hm]
    · simp [add_wallet_for_gas_monitoring, hm]

/-- Witness for C9 (amended): canonicalisation by lower-casing maps the
two case forms of one address to the same canonical text, and the
duplicate `add_wallet` is absorbed. -/
theorem claim_C9_witness :
    (lowerStr "0xAAAAAAAAAAAAAAAAAAAAAAAAAAAAAAAAAAAAAAAA" = lowerStr "0xaaaaaaaaaaaaaaaaaaaaaaaaaaaaaaaaaaaaaaaa") ∧
    add_wallet lowerStr "0xAAAAAAAAAAAAAAAAAAAAAAAAAAAAAAAAAAAAAAAA" (add_wallet lowerStr "0xaaaaaaaaaaaaaaaaaaaaaaaaaaaaaaaaaaaaaaaa" initAutoState)
      = add_wallet lowerStr "0xaaaaaaaaaaaaaaaaaaaaaaaaaaaaaaaaaaaaaaaa" initAutoState ∧
    add_wallet_for_gas_monitoring "w" (add_wallet_for_gas_monitoring "w" initAutoState)
      = add_wallet_for_gas_monitoring "w" initAutoState := by
  have h : lowerStr "0xAAAAAAAAAAAAAAAAAAAAAAAAAAAAAAAAAAAAAAAA" = lowerStr "0xaaaaaaaaaaaaaaaaaaaaaaaaaaaaaaaaaaaaaaaa" := by decide
  exact ⟨h, claim_C9_registry_idempotence.1 lowerStr "0xAAAAAAAAAAAAAAAAAAAAAAAAAAAAAAAAAAAAAAAA" "0xaaaaaaaaaaaaaaaaaaaaaaaaaaaaaaaaaaaaaaaa" initAutoState h,
    claim_C9_registry_idempotence.2.2 "w" initAutoState⟩

end Drinker
